import Mathlib

/-!
Verification development for the Telegram JSON workflow bot.

The live engine is `InlineWorkflowManager` in `inline_workflow_manager.py`
(the one instantiated by `main.py`); `module.py` holds an earlier
near-duplicate variant.  The definitions below are a shallow embedding of
the inline engine: Python dictionaries become ordered association lists
(insertion order preserved, as guaranteed by Python 3.7+ dicts), the
polymorphic per-step selection slot becomes the tagged union `StepSel`,
user state is passed explicitly, and code that can raise an uncaught
exception returns `Option`.

Claims about `get_user_selections` concern object identity (shallow versus
deep copying), so a small reference-semantics model of the selections
store is defined separately at the end of the definitions section.
-/

/-- A Python value that can appear inside a per-step selection slot:
a string payload, `None`, or a boolean (booleans are written by the
toggle branch).  Radio-group names also appear as dictionary keys. -/
inductive SelVal where
  | vstr : String → SelVal
  | vnone : SelVal
  | vbool : Bool → SelVal
deriving DecidableEq, Repr

/-- Python truthiness of a `SelVal` (`if x:` / `not x`):
empty string and `None` and `False` are falsy. -/
def selTruthy : SelVal → Bool
  | SelVal.vstr s => s ≠ ""
  | SelVal.vnone => false
  | SelVal.vbool b => b

/-- The per-step selection slot (`workflow_state['selections'][step_key]`).
The source stores, depending on which button type last wrote it:
a single scalar (`prim`), a dictionary (`sdict`, used both for radio
groups and for toggles), or a list (`slist`, used for checkboxes). -/
inductive StepSel where
  | prim : SelVal → StepSel
  | sdict : List (SelVal × SelVal) → StepSel
  | slist : List SelVal → StepSel
deriving DecidableEq, Repr

/-- Python `dict.get`: first (unique) binding of a key in an ordered
association list. -/
def alGet {κ ν : Type} [DecidableEq κ] : List (κ × ν) → κ → Option ν
  | [], _ => none
  | (k', v) :: rest, k => if k' = k then some v else alGet rest k

/-- Python `dict[k] = v`: overwrite the existing binding in place,
otherwise append the new binding at the end (insertion order). -/
def alSet {κ ν : Type} [DecidableEq κ] : List (κ × ν) → κ → ν → List (κ × ν)
  | [], k, v => [(k, v)]
  | (k', v') :: rest, k, v =>
      if k' = k then (k', v) :: rest else (k', v') :: alSet rest k v

/-- One inline button of the workflow definition.  Fields mirror the keys
the source reads off `button_config`: `value` is `button_config.get('value')`
(`vnone` when the key is absent), `type` is `button_config.get('type')`,
`radioGroup` is present (`some`) or absent (`none`), `skipSteps` is
`button_config.get('skipSteps', 0)` and `initialState` is
`button_config.get('initialState', False)`. -/
structure ButtonConfig where
  buttonName : String
  value : SelVal
  type : Option String
  radioGroup : Option String
  skipSteps : Int
  initialState : Bool
deriving DecidableEq, Repr

/-- One step of the workflow definition: `description`,
`completionType` (read with default `'auto'`), the `options` grid of
button rows, and the truthiness of the `backButton` entry. -/
structure StepConfig where
  description : Option String
  completionType : Option String
  options : List (List ButtonConfig)
  backButton : Bool
deriving DecidableEq, Repr

/-- The parsed workflow: the ordered `(step key, step config)` pairs of
the single top-level workflow object (Python dict order). -/
structure Workflow where
  steps : List (String × StepConfig)
deriving DecidableEq, Repr

/-- `self._step_keys`: the ordered list of step keys. -/
def stepKeys (w : Workflow) : List String := w.steps.map Prod.fst

/-- `self._get_step_config(step_key)`: `self.workflow_steps.get(step_key)`. -/
def getStepConfig (w : Workflow) (stepKey : String) : Option StepConfig :=
  alGet w.steps stepKey

/-- `self._radio_groups_per_step.get(step_key, [])`: the distinct
`radioGroup` identifiers among the step's buttons whose `type` is
`'radio'` and which carry a `radioGroup` key (a Python `set`, stored as a
list; only membership and emptiness are ever used). -/
def radioGroupsFor (w : Workflow) (stepKey : String) : List String :=
  match getStepConfig w stepKey with
  | none => []
  | some sc =>
      (sc.options.flatten.filterMap fun bc =>
        if bc.type = some "radio" ∧ bc.radioGroup.isSome then bc.radioGroup
        else none).dedup

/-- `self._get_next_step_key(current_step_key, skip_steps)`: index of the
current key plus `1 + skip`, in bounds, else `None`; a `ValueError` from
`.index` (unknown key) is caught, logged, and also mapped to `None`. -/
def getNextStepKey (w : Workflow) (currentStepKey : String) (skipSteps : Int) :
    Option String :=
  match (stepKeys w).findIdx? (· == currentStepKey) with
  | none => none
  | some currentIndex =>
      let nextIndex : Int := (currentIndex : Int) + 1 + skipSteps
      if 0 ≤ nextIndex ∧ nextIndex < ((stepKeys w).length : Int) then
        (stepKeys w).get? nextIndex.toNat
      else none

/-- `self._get_previous_step_key(current_step_key)`: the key at index
`i - 1` when `i > 0`, else `None`; an unknown current key is caught,
logged, and also mapped to `None`. -/
def getPreviousStepKey (w : Workflow) (currentStepKey : String) : Option String :=
  match (stepKeys w).findIdx? (· == currentStepKey) with
  | none => none
  | some currentIndex =>
      if 1 ≤ currentIndex then (stepKeys w).get? (currentIndex - 1)
      else none

/-- The per-user workflow state kept in `context.user_data`:
`current_step` (may be `None`) and the `selections` dictionary. -/
structure UserState where
  currentStep : Option String
  selections : List (String × StepSel)
deriving DecidableEq, Repr

/-- `self._update_selection(context, step_key, button_config)`: records a
selection according to the button type.  Default (`None`-typed) and
`skip` buttons overwrite the slot with the scalar value; `radio` buttons
require a truthy `radioGroup` and write into a per-step group dictionary
(coercing a non-dict slot to an empty dict first), and are ignored when
the group is missing or falsy; `checkbox` buttons toggle membership in a
per-step list; `toggle` buttons negate the truthiness of the per-value
entry of a per-step dictionary.  Any other type (including `finish`)
leaves the state untouched. -/
def updateSelection (st : UserState) (stepKey : String) (bc : ButtonConfig) :
    UserState :=
  let selectionValue := bc.value
  if bc.type = none ∨ bc.type = some "skip" then
    { st with selections := alSet st.selections stepKey (StepSel.prim selectionValue) }
  else if bc.type = some "radio" then
    let currentSelectionState :=
      match alGet st.selections stepKey with
      | some (StepSel.sdict d) => d
      | _ => []
    match bc.radioGroup with
    | some radioGroup =>
        if radioGroup ≠ "" then
          let newDict := alSet currentSelectionState (SelVal.vstr radioGroup) selectionValue
          { st with selections := alSet st.selections stepKey (StepSel.sdict newDict) }
        else st
    | none => st
  else if bc.type = some "checkbox" then
    let currentSelectionState :=
      match alGet st.selections stepKey with
      | some (StepSel.slist l) => l
      | _ => []
    let newList :=
      if selectionValue ∈ currentSelectionState then
        currentSelectionState.erase selectionValue
      else currentSelectionState ++ [selectionValue]
    { st with selections := alSet st.selections stepKey (StepSel.slist newList) }
  else if bc.type = some "toggle" then
    let currentSelectionState :=
      match alGet st.selections stepKey with
      | some (StepSel.sdict d) => d
      | _ => []
    let currentStateForValue : Bool :=
      match alGet currentSelectionState selectionValue with
      | some v => selTruthy v
      | none => bc.initialState
    let newDict :=
      alSet currentSelectionState selectionValue (SelVal.vbool (!currentStateForValue))
    { st with selections := alSet st.selections stepKey (StepSel.sdict newDict) }
  else st

/-- `self._validate_manual_step_completion(context, step_key)`.
Returns `none` where the source would raise an uncaught `AttributeError`
(step config missing).  Otherwise: automatically valid for non-`manual`
steps and for steps without radio groups; for a manual step with radio
groups the slot must be a dictionary holding a present, non-`None` value
for every required group. -/
def validateManualStepCompletion (w : Workflow) (st : UserState)
    (stepKey : String) : Option Bool :=
  match getStepConfig w stepKey with
  | none => none
  | some sc =>
      if sc.completionType.getD "auto" ≠ "manual" then some true
      else
        let requiredRadioGroups := radioGroupsFor w stepKey
        if requiredRadioGroups = [] then some true
        else
          match alGet st.selections stepKey with
          | some (StepSel.sdict userSelections) =>
              some (requiredRadioGroups.all fun group =>
                match alGet userSelections (SelVal.vstr group) with
                | some SelVal.vnone => false
                | some _ => true
                | none => false)
          | _ => some false

/-- Splits a character list at every `':'` (Python `str.split(':')`). -/
def splitCharList : List Char → List (List Char)
  | [] => [[]]
  | c :: rest =>
      let r := splitCharList rest
      if c = ':' then [] :: r
      else
        match r with
        | h :: t => (c :: h) :: t
        | [] => [[c]]

/-- Python `callback_data.split(':')`. -/
def splitOnColon (s : String) : List String :=
  (splitCharList s.data).map fun l => ⟨l⟩

/-- Parses a nonempty run of decimal digits. -/
def digitsToNat : List Char → Option Nat
  | [] => none
  | l => go l 0
where
  go : List Char → Nat → Option Nat
    | [], acc => some acc
    | c :: rest, acc =>
        if c.isDigit then go rest (acc * 10 + (c.toNat - '0'.toNat))
        else none

/-- Python `int(s)` on canonical numerals: an optional sign followed by
decimal digits (the whitespace/underscore tolerance of `int` is not
modelled; no activation token in the claims uses it).  `none` models the
`ValueError` that the caller catches. -/
def pyToInt (s : String) : Option Int :=
  match s.data with
  | '-' :: rest => (digitsToNat rest).map fun n => -(n : Int)
  | '+' :: rest => (digitsToNat rest).map fun n => (n : Int)
  | l => (digitsToNat l).map fun n => (n : Int)

/-- Python list indexing `l[i]` with negative indices counting from the
end; `none` models the `IndexError` that the caller catches. -/
def pyListGet {α : Type} (l : List α) (i : Int) : Option α :=
  if 0 ≤ i then l.get? i.toNat
  else
    let j : Int := (l.length : Int) + i
    if 0 ≤ j then l.get? j.toNat else none

/-- The characters `telegram.helpers.escape_markdown(version=2)` escapes. -/
def markdownV2SpecialChars : List Char :=
  ['\\', '_', '*', '[', ']', '(', ')', '~', '\x60', '>', '#', '+', '-', '=',
   '|', '\x7b', '\x7d', '.', '!']

/-- `escape_markdown(text, version=2)`: prefix every special character
with a backslash. -/
def escapeMarkdown (s : String) : String :=
  ⟨s.data.foldr
    (fun c acc =>
      if c ∈ markdownV2SpecialChars then '\\' :: c :: acc else c :: acc) []⟩

def RADIO_UNSELECTED : String := "🔘"

def RADIO_SELECTED : String := "🟢"

def CHECKBOX_UNSELECTED : String := "⬜"

def CHECKBOX_SELECTED : String := "✅"

def TOGGLE_OFF : String := "🔴"

def TOGGLE_ON : String := "🟢"

def BACK_EMOJI : String := "⬅️"

def DONE_EMOJI : String := "✅"

/-- One rendered inline keyboard button: `InlineKeyboardButton(text, callback_data)`. -/
structure IKButton where
  text : String
  callbackData : String
deriving DecidableEq, Repr

/-- The radio pre-selection loop of `_generate_keyboard_and_text` over the
flattened button grid: for every `radio` button carrying a `radioGroup`
key whose group is missing from (or `None` in) the working dictionary,
write that button's value for the group and flag that a change was made. -/
def preselectButtons :
    List ButtonConfig → List (SelVal × SelVal) → Bool →
    List (SelVal × SelVal) × Bool
  | [], temp, changed => (temp, changed)
  | bc :: rest, temp, changed =>
      if bc.type = some "radio" ∧ bc.radioGroup.isSome then
        match bc.radioGroup with
        | some group =>
            (match alGet temp (SelVal.vstr group) with
             | none =>
                 preselectButtons rest (alSet temp (SelVal.vstr group) bc.value) true
             | some v =>
                 if v = SelVal.vnone then
                   preselectButtons rest (alSet temp (SelVal.vstr group) bc.value) true
                 else preselectButtons rest temp changed)
        | none => preselectButtons rest temp changed
      else preselectButtons rest temp changed

/-- The pre-selection block of `_generate_keyboard_and_text`: for a
`manual` step with radio groups, coerce a non-dict slot to an empty dict
(written into state immediately), run `preselectButtons` over a copy, and
persist the copy back when it changed.  Returns the possibly-updated
state together with the `user_selections_for_step` value the rest of the
renderer uses for glyphs. -/
def materializeDefaults (w : Workflow) (st : UserState) (currentStepKey : String)
    (sc : StepConfig) : UserState × Option StepSel :=
  let userSelectionsForStep := alGet st.selections currentStepKey
  let stepCompletionType := sc.completionType.getD "auto"
  let requiredRadioGroups := radioGroupsFor w currentStepKey
  if stepCompletionType = "manual" ∧ requiredRadioGroups ≠ [] then
    let coerced :=
      match userSelectionsForStep with
      | some (StepSel.sdict d) => (d, st)
      | _ =>
          ([], { st with selections := alSet st.selections currentStepKey (StepSel.sdict []) })
    let base := coerced.1
    let st1 := coerced.2
    let pass := preselectButtons sc.options.flatten base false
    if pass.2 then
      let st2 := { st1 with selections := alSet st1.selections currentStepKey (StepSel.sdict pass.1) }
      (st2, some (StepSel.sdict pass.1))
    else (st1, some (StepSel.sdict base))
  else (st, userSelectionsForStep)

/-- The per-button glyph annotation of `_generate_keyboard_and_text`:
radio buttons get the selected glyph when the step dictionary maps their
group to their value (a missing group reads as `None`, which matches a
`None` button value), checkboxes when their value is in the step list,
toggles according to the truthiness of their per-value entry (falling
back to `initialState`); other kinds are unannotated. -/
def glyphButtonText (bc : ButtonConfig) (userSel : Option StepSel) : String :=
  if bc.type = some "radio" then
    let selected : Bool :=
      match userSel, bc.radioGroup with
      | some (StepSel.sdict d), some group =>
          decide (((alGet d (SelVal.vstr group)).getD SelVal.vnone) = bc.value)
      | _, _ => false
    (if selected then RADIO_SELECTED else RADIO_UNSELECTED) ++ " " ++ bc.buttonName
  else if bc.type = some "checkbox" then
    let selected : Bool :=
      match userSel with
      | some (StepSel.slist l) => decide (bc.value ∈ l)
      | _ => false
    (if selected then CHECKBOX_SELECTED else CHECKBOX_UNSELECTED) ++ " " ++ bc.buttonName
  else if bc.type = some "toggle" then
    let currentState : SelVal :=
      match userSel with
      | some (StepSel.sdict d) => (alGet d bc.value).getD (SelVal.vbool bc.initialState)
      | _ => SelVal.vbool bc.initialState
    (if selTruthy currentState then TOGGLE_ON else TOGGLE_OFF) ++ " " ++ bc.buttonName
  else bc.buttonName

/-- The option-button grid: one rendered row per declared row, with each
button's action token `"<stepKey>:<rowIndex>:<buttonIndex>"`. -/
def buildOptionRows (currentStepKey : String) (sc : StepConfig)
    (userSel : Option StepSel) : List (List IKButton) :=
  sc.options.enum.map fun rowPair =>
    rowPair.2.enum.map fun btnPair =>
      ⟨glyphButtonText btnPair.2 userSel,
       currentStepKey ++ ":" ++ toString rowPair.1 ++ ":" ++ toString btnPair.1⟩

/-- The `Done / Next` control row, appended iff the step's completion
type is `manual`. -/
def doneRows (currentStepKey : String) (sc : StepConfig) : List (List IKButton) :=
  if sc.completionType.getD "auto" = "manual" then
    [[⟨DONE_EMOJI ++ " Done / Next", "done:" ++ currentStepKey⟩]]
  else []

/-- Python truthiness of `_get_previous_step_key`'s result: the source
tests `if self._get_previous_step_key(current_step_key):`, which is
false for `None` and also for an empty-string key. -/
def optStrTruthy : Option String → Bool
  | some s => s ≠ ""
  | none => false

/-- The `Go Back` control row, appended iff the step's `backButton`
entry is truthy and the previous step key is truthy (the source tests
the returned key's Python truthiness, not mere existence). -/
def backRows (w : Workflow) (currentStepKey : String) (sc : StepConfig) :
    List (List IKButton) :=
  if sc.backButton = true ∧ optStrTruthy (getPreviousStepKey w currentStepKey) = true then
    [[⟨BACK_EMOJI ++ " Go Back", "back:" ++ currentStepKey⟩]]
  else []

/-- Result of `_generate_keyboard_and_text`: the keyboard (or `none` when
the current step has no configuration), the escaped message text, and the
state as mutated by radio pre-selection. -/
structure RenderResult where
  markup : Option (List (List IKButton))
  text : String
  state : UserState
deriving DecidableEq, Repr

/-- `self._generate_keyboard_and_text(context)`: renders the user's
current step, performing radio pre-selection for manual radio steps as a
side effect on the state. -/
def generateKeyboardAndText (w : Workflow) (st : UserState) : RenderResult :=
  let configMissing : RenderResult :=
    ⟨none,
     escapeMarkdown "An internal error occurred (step config missing for current step).",
     st⟩
  match st.currentStep with
  | none => configMissing
  | some currentStepKey =>
      match getStepConfig w currentStepKey with
      | none => configMissing
      | some sc =>
          let pre := materializeDefaults w st currentStepKey sc
          let rows :=
            buildOptionRows currentStepKey sc pre.2 ++ doneRows currentStepKey sc ++
              backRows w currentStepKey sc
          ⟨some rows,
           escapeMarkdown (sc.description.getD "Please make a selection:"),
           pre.1⟩

/-- `self.get_user_selections(context)`: `workflow_state['selections'].copy()`.
At the value level the shallow copy is the selections list itself; the
object-identity consequences of `.copy()` are modelled separately by the
reference-semantics model below. -/
def getUserSelections (st : UserState) : List (String × StepSel) :=
  st.selections

/-- JSON rendering of a selection scalar (stand-in for `json.dumps`;
no claim depends on the exact characters of the summary text). -/
def selValToJson : SelVal → String
  | SelVal.vstr s => "\"" ++ s ++ "\""
  | SelVal.vnone => "null"
  | SelVal.vbool true => "true"
  | SelVal.vbool false => "false"

/-- JSON rendering of a per-step selection slot (stand-in for `json.dumps`). -/
def stepSelToJson : StepSel → String
  | StepSel.prim v => selValToJson v
  | StepSel.slist l => "[" ++ String.intercalate ", " (l.map selValToJson) ++ "]"
  | StepSel.sdict d =>
      "\x7b" ++
        String.intercalate ", "
          (d.map fun kv => selValToJson kv.1 ++ ": " ++ selValToJson kv.2) ++
      "\x7d"

/-- JSON rendering of the whole selections mapping (stand-in for
`json.dumps(final_selections, indent=2)` up to whitespace). -/
def selectionsToJson (sels : List (String × StepSel)) : String :=
  "\x7b" ++
    String.intercalate ", "
      (sels.map fun kv => "\"" ++ kv.1 ++ "\": " ++ stepSelToJson kv.2) ++
  "\x7d"

/-- One response of `process_callback_and_get_response`: the message
text, the keyboard, the `is_final_message` flag, and the state after the
call (state is threaded explicitly in this embedding). -/
structure CallbackResponse where
  text : String
  markup : Option (List (List IKButton))
  isFinal : Bool
  state : UserState
deriving DecidableEq, Repr

/-- The override text shown when manual-completion validation fails. -/
def validationWarningText : String :=
  escapeMarkdown "⚠️ Please make all required selections before proceeding."

/-- `self.reset_user_state(context)`: the workflow entry is deleted from
`context.user_data`; a later access re-initialises it.  Modelled as an
empty state with no current step. -/
def resetUserState (_st : UserState) : UserState := ⟨none, []⟩

/-- The final summary message: escaped intro plus the JSON dump of
`get_user_selections`. -/
def workflowSummaryText (st : UserState) : String :=
  escapeMarkdown "Workflow completed! Here are your selections:" ++
    "\n```json\n" ++ selectionsToJson (getUserSelections st) ++ "\n```"

/-- Response for the branch where `current_step_key` is falsy: state is
reset and a final "state was lost" message is produced. -/
def stateLostResponse (st : UserState) : CallbackResponse :=
  ⟨escapeMarkdown "Your workflow state was lost. Please start again with /start.",
   none, true, resetUserState st⟩

/-- Response for a stale activation (token's step differs from the
user's current step): re-render the current step, not final.  (The
source returns the tuple components of `_generate_keyboard_and_text`
positionally swapped on these lines — a transport-level slip; the fields
are modelled by their roles.) -/
def staleResponse (w : Workflow) (st : UserState) : CallbackResponse :=
  let r := generateKeyboardAndText w st
  ⟨r.text, r.markup, false, r.state⟩

/-- Response for an activation token that does not have exactly three
colon-separated parts: error text plus the current step's keyboard (the
renderer's pre-selection side effect persists). -/
def invalidButtonDataResponse (w : Workflow) (st : UserState) : CallbackResponse :=
  let r := generateKeyboardAndText w st
  ⟨escapeMarkdown "An internal error occurred (invalid button data).", r.markup,
   false, r.state⟩

/-- Response for the `except (IndexError, ValueError)` handler of the
option path: error text plus the current step's keyboard. -/
def processingErrorResponse (w : Workflow) (st : UserState) : CallbackResponse :=
  let r := generateKeyboardAndText w st
  ⟨escapeMarkdown "An internal error occurred while processing your request.",
   r.markup, false, r.state⟩

/-- The common tail of `process_callback_and_get_response` for an ongoing
workflow: render the step now stored in the state, preferring the
override text when one was set. -/
def ongoingResponse (w : Workflow) (st : UserState) (override : Option String) :
    CallbackResponse :=
  let r := generateKeyboardAndText w st
  let responseText := override.getD r.text
  if r.markup = none ∧ responseText = "" then
    ⟨escapeMarkdown "An error occurred generating the next step's UI.", none,
     false, r.state⟩
  else ⟨responseText, r.markup, false, r.state⟩

/-- The `back:` branch: ignored (re-render) when stale, else move to the
previous step when one exists and render, else stay and render. -/
def processBack (w : Workflow) (st : UserState) (currentStepKey : String)
    (backFromStep : String) : CallbackResponse :=
  if backFromStep ≠ currentStepKey then staleResponse w st
  else
    match getPreviousStepKey w currentStepKey with
    | some previousStepKey =>
        ongoingResponse w { st with currentStep := some previousStepKey } none
    | none => ongoingResponse w st none

/-- The `done:` branch: ignored (re-render) when stale; otherwise run the
manual-completion validator — on success advance to the next step (final
summary when there is none), on failure stay and render with the
override warning.  `none` models the uncaught exception the source would
raise when the current step has no configuration. -/
def processDone (w : Workflow) (st : UserState) (currentStepKey : String)
    (doneFromStep : String) : Option CallbackResponse :=
  if doneFromStep ≠ currentStepKey then some (staleResponse w st)
  else
    match validateManualStepCompletion w st currentStepKey with
    | none => none
    | some ok =>
        if ok then
          let nextStepKeyActual := getNextStepKey w currentStepKey 0
          let st2 := { st with currentStep := nextStepKeyActual }
          match nextStepKeyActual with
          | none => some ⟨workflowSummaryText st2, none, true, st2⟩
          | some _ => some (ongoingResponse w st2 none)
        else some (ongoingResponse w st (some validationWarningText))

/-- The per-type dispatch of an option-button click: `finish` ends the
workflow; `skip` records and advances by `1 + skipSteps`; `radio`,
`checkbox` and `toggle` record and stay; a default button records and
advances when the step completes automatically, else stays. -/
def dispatchButton (w : Workflow) (st : UserState) (currentStepKey : String)
    (sc : StepConfig) (bc : ButtonConfig) : CallbackResponse :=
  let stepCompletionType := sc.completionType.getD "auto"
  if bc.type = some "finish" then
    let st1 := updateSelection st currentStepKey bc
    ⟨workflowSummaryText st1, none, true, st1⟩
  else if bc.type = some "skip" then
    let st1 := updateSelection st currentStepKey bc
    let nextStepKeyActual := getNextStepKey w currentStepKey bc.skipSteps
    let st2 := { st1 with currentStep := nextStepKeyActual }
    match nextStepKeyActual with
    | none => ⟨workflowSummaryText st2, none, true, st2⟩
    | some _ => ongoingResponse w st2 none
  else if bc.type = some "radio" ∨ bc.type = some "checkbox" ∨ bc.type = some "toggle" then
    let st1 := updateSelection st currentStepKey bc
    ongoingResponse w st1 none
  else
    let st1 := updateSelection st currentStepKey bc
    if stepCompletionType = "auto" then
      let nextStepKeyActual := getNextStepKey w currentStepKey 0
      let st2 := { st1 with currentStep := nextStepKeyActual }
      match nextStepKeyActual with
      | none => ⟨workflowSummaryText st2, none, true, st2⟩
      | some _ => ongoingResponse w st2 none
    else ongoingResponse w st1 none

/-- The option-click branch: exactly three parts, integer row and column
(parsed before the staleness check, as in the source), bounds resolved by
Python list indexing (negative indices count from the end), then the
per-type dispatch.  A missing step configuration resets the state. -/
def processOption (w : Workflow) (st : UserState) (currentStepKey : String)
    (parts : List String) : Option CallbackResponse :=
  if parts.length ≠ 3 then some (invalidButtonDataResponse w st)
  else
    match parts with
    | [clickedStepKey, rowStr, colStr] =>
        (match pyToInt rowStr, pyToInt colStr with
         | some rowIndex, some buttonIndex =>
             if clickedStepKey ≠ currentStepKey then some (staleResponse w st)
             else
               match getStepConfig w currentStepKey with
               | none =>
                   some ⟨escapeMarkdown
                       "An internal error occurred (step configuration missing). Please restart.",
                     none, true, resetUserState st⟩
               | some sc =>
                   match pyListGet sc.options rowIndex with
                   | none => some (processingErrorResponse w st)
                   | some rowConfig =>
                       match pyListGet rowConfig buttonIndex with
                       | none => some (processingErrorResponse w st)
                       | some bc => some (dispatchButton w st currentStepKey sc bc)
         | _, _ => some (processingErrorResponse w st))
    | _ => some (processingErrorResponse w st)

/-- Token dispatch of `process_callback_and_get_response` once a truthy
current step is known.  The source tests `startswith("back:")` and
`startswith("done:")` and then splits on `':'`; splitting first and
testing the head is equivalent for every string (a token starts with
`"back:"` iff its split has head `"back"` and at least two parts). -/
def processWithCurrent (w : Workflow) (st : UserState) (currentStepKey : String)
    (callbackData : String) : Option CallbackResponse :=
  let parts := splitOnColon callbackData
  match parts with
  | p0 :: p1 :: _ =>
      if p0 = "back" then some (processBack w st currentStepKey p1)
      else if p0 = "done" then processDone w st currentStepKey p1
      else processOption w st currentStepKey parts
  | _ => processOption w st currentStepKey parts

/-- `self.process_callback_and_get_response(context, callback_data)`:
reset with a final "state lost" message when the stored current step is
falsy, else dispatch on the token.  `none` models an uncaught exception. -/
def processCallbackAndGetResponse (w : Workflow) (st : UserState)
    (callbackData : String) : Option CallbackResponse :=
  match st.currentStep with
  | none => some (stateLostResponse st)
  | some currentStepKey =>
      if currentStepKey = "" then some (stateLostResponse st)
      else processWithCurrent w st currentStepKey callbackData

/-- Reference-semantics model for `get_user_selections`.  Per-step
container objects (lists/dicts) live on `containerHeap`; dictionary
objects live on `dictHeap`, each holding ordered entries mapping a step
key to a container address; `selRef` is the address of the engine's
internal `workflow_state['selections']` dictionary object.  Mutating an
object through any reference to its address is a heap write at that
address, visible through every reference to it. -/
structure RefState where
  containerHeap : List StepSel
  dictHeap : List (List (String × Nat))
  selRef : Nat
deriving DecidableEq, Repr

/-- The entries of the dictionary object at address `r`. -/
def dictEntries (s : RefState) (r : Nat) : List (String × Nat) :=
  (s.dictHeap.get? r).getD []

/-- `workflow_state['selections'].copy()` under reference semantics:
allocate a fresh dictionary object holding the same `(key, container
address)` entries as the internal dictionary — the per-step container
objects themselves are shared, not copied.  Returns the new state and
the address of the returned snapshot. -/
def getUserSelectionsShallow (s : RefState) : RefState × Nat :=
  ({ s with dictHeap := s.dictHeap ++ [dictEntries s s.selRef] }, s.dictHeap.length)

/-- A top-level mutation of the dictionary object at address `r`
(for example `snapshot[step] = obj`): set entry `k` to container
address `a`. -/
def dictWrite (s : RefState) (r : Nat) (k : String) (a : Nat) : RefState :=
  { s with dictHeap := s.dictHeap.set r (alSet (dictEntries s r) k a) }

/-- A mutation of the container object at address `a` (for example
`snapshot[step].append(v)` performed through the returned snapshot). -/
def heapWrite (s : RefState) (a : Nat) (v : StepSel) : RefState :=
  { s with containerHeap := s.containerHeap.set a v }

/-- The observable value of the dictionary object at address `r`: each
step key with the dereferenced contents of its container cell. -/
def derefSelections (s : RefState) (r : Nat) : List (String × Option StepSel) :=
  (dictEntries s r).map fun kv => (kv.1, s.containerHeap.get? kv.2)

/-- The renderer's coercion of a step slot to a radio dictionary: keep a
stored dictionary, reset anything else (including an absent slot) to the
empty dictionary. -/
def coerceBase : Option StepSel → List (SelVal × SelVal)
  | some (StepSel.sdict d) => d
  | _ => []

/-- The values, in declaration order, of the radio buttons of group `g`
among a flattened button list. -/
def radioValuesOfGroup (buttons : List ButtonConfig) (g : String) : List SelVal :=
  buttons.filterMap fun bc =>
    if bc.type = some "radio" ∧ bc.radioGroup = some g then some bc.value else none

/-- First non-`None` element of a value list (`vnone` when all are `None`
or the list is empty). -/
def firstNonNoneValue : List SelVal → SelVal
  | [] => SelVal.vnone
  | SelVal.vnone :: rest => firstNonNoneValue rest
  | v :: _ => v

/-- What the pre-selection pass leaves recorded for a group, as a
function of the previously recorded value and the group's declared radio
values: a recorded non-`None` value is kept; otherwise the first
non-`None` declared value wins (staying `None` when every declared value
is `None`, and a missing group without buttons stays missing). -/
def resolveDefault : Option SelVal → List SelVal → Option SelVal
  | some v, vals =>
      if v = SelVal.vnone then
        if vals = [] then some SelVal.vnone else some (firstNonNoneValue vals)
      else some v
  | none, vals => if vals = [] then none else some (firstNonNoneValue vals)

/-- Modelled from the spec's words for the comparison in claim C2: "the
first declared radio button's value" for a group — the value of the
first radio button declared for that group, regardless of whether that
value is `None`. -/
def specFirstDeclaredRadioValue (sc : StepConfig) (g : String) : Option SelVal :=
  (sc.options.flatten.find? fun bc =>
    bc.type == some "radio" && bc.radioGroup == some g).map fun bc => bc.value

/-- Fixture: radio button "Red" of group `g`. -/
def btnRed : ButtonConfig := ⟨"Red", SelVal.vstr "red", some "radio", some "g", 0, false⟩

/-- Fixture: radio button "Blue" of group `g`. -/
def btnBlue : ButtonConfig := ⟨"Blue", SelVal.vstr "blue", some "radio", some "g", 0, false⟩

/-- Fixture: plain button "Yes". -/
def btnYes : ButtonConfig := ⟨"Yes", SelVal.vstr "yes", none, none, 0, false⟩

/-- Fixture: a manual step with one radio group `g` (buttons Red, Blue). -/
def stepColor : StepConfig :=
  ⟨some "Choose a color", some "manual", [[btnRed, btnBlue]], false⟩

/-- Fixture: an auto step with a plain button and a declared back control. -/
def stepWrap : StepConfig := ⟨some "Wrap it?", none, [[btnYes]], true⟩

/-- Fixture workflow with steps `color` then `wrap`. -/
def wfColorWrap : Workflow := ⟨[("color", stepColor), ("wrap", stepWrap)]⟩

/-- Fixture: user at step `color` with no selections recorded. -/
def stAtColor : UserState := ⟨some "color", []⟩

/-- Fixture: user at step `wrap` with no selections recorded. -/
def stAtWrap : UserState := ⟨some "wrap", []⟩

/-- Fixture: radio button of group `h` declared without a value. -/
def btnAny : ButtonConfig := ⟨"Any", SelVal.vnone, some "radio", some "h", 0, false⟩

/-- Fixture: radio button "Big" of group `h` with value `big`. -/
def btnBig : ButtonConfig := ⟨"Big", SelVal.vstr "big", some "radio", some "h", 0, false⟩

/-- Fixture: a manual step whose group `h` starts with a value-less
radio button. -/
def stepSize : StepConfig := ⟨some "Choose a size", some "manual", [[btnAny, btnBig]], false⟩

/-- Fixture workflow with the single step `size`. -/
def wfSize : Workflow := ⟨[("size", stepSize)]⟩

/-- Fixture: user at step `size` with no selections recorded. -/
def stAtSize : UserState := ⟨some "size", []⟩

/-- Fixture: checkbox button with value `y`. -/
def btnCheckY : ButtonConfig := ⟨"Y", SelVal.vstr "y", some "checkbox", none, 0, false⟩

/-- Fixture: checkbox button with value `z`. -/
def btnCheckZ : ButtonConfig := ⟨"Z", SelVal.vstr "z", some "checkbox", none, 0, false⟩

/-- Fixture: an auto step with two checkbox buttons. -/
def stepPick : StepConfig := ⟨some "Pick", none, [[btnCheckY, btnCheckZ]], false⟩

/-- Fixture workflow with the single step `pick`. -/
def wfPick : Workflow := ⟨[("pick", stepPick)]⟩

/-- Fixture: user at step `pick` with no selections recorded. -/
def stAtPick : UserState := ⟨some "pick", []⟩

/-- Fixture: radio button of group `g1` with value `z`. -/
def btnG1Z : ButtonConfig := ⟨"Z1", SelVal.vstr "z", some "radio", some "g1", 0, false⟩

/-- Fixture: radio button declared without any `radioGroup` key. -/
def btnNoGroup : ButtonConfig := ⟨"Loose", SelVal.vstr "loose", some "radio", none, 0, false⟩

/-- Fixture: user at step `pick` with checkboxes `y` and `z` selected. -/
def stPicked : UserState :=
  ⟨some "pick", [("pick", StepSel.slist [SelVal.vstr "y", SelVal.vstr "z"])]⟩

/-- Fixture: user at a step `s` with radio groups `g1` and `g2` recorded. -/
def stTwoGroups : UserState :=
  ⟨some "s",
   [("s", StepSel.sdict [(SelVal.vstr "g1", SelVal.vstr "x"), (SelVal.vstr "g2", SelVal.vstr "y")])]⟩

/-- Fixture for the reference-semantics model: one step `s` whose
checkbox list `["x"]` lives in container cell 0, and whose internal
selections dictionary object (address 0) maps `s` to that cell. -/
def refFixture : RefState := ⟨[StepSel.slist [SelVal.vstr "x"]], [[("s", 0)]], 0⟩

/-- Fixture: an auto step used under the empty-string step key. -/
def stepEmptyKey : StepConfig := ⟨some "Start", none, [[btnYes]], false⟩

/-- Fixture: an auto step that declares a back control. -/
def stepSecond : StepConfig := ⟨some "Second", none, [[btnYes]], true⟩

/-- Fixture workflow whose first step key is the empty string and whose
second step declares a back control. -/
def wfEmptyFirst : Workflow := ⟨[("", stepEmptyKey), ("second", stepSecond)]⟩

/-- Fixture: user at step `second` of `wfEmptyFirst`. -/
def stAtSecond : UserState := ⟨some "second", []⟩

/-- Looking up the key just written returns the written value. -/
theorem alGet_alSet_self {κ ν : Type} [DecidableEq κ] (d : List (κ × ν)) (k : κ) (v : ν) :
    alGet (alSet d k v) k = some v := by
  induction d with
  | nil => simp [alGet, alSet]
  | cons hd tl ih =>
      obtain ⟨a, b⟩ := hd
      by_cases h : a = k <;> simp [alGet, alSet, h, ih]

/-- Writing one key leaves every other key's binding unchanged. -/
theorem alGet_alSet_ne {κ ν : Type} [DecidableEq κ] (d : List (κ × ν)) (k k' : κ) (v : ν)
    (h : k' ≠ k) : alGet (alSet d k v) k' = alGet d k' := by
  induction d with
  | nil =>
      have hk : ¬ k = k' := fun hh => h hh.symm
      simp [alGet, alSet, hk]
  | cons hd tl ih =>
      obtain ⟨a, b⟩ := hd
      by_cases h1 : a = k
      · subst h1
        have hk : ¬ a = k' := fun hh => h hh.symm
        simp [alGet, alSet, hk]
      · by_cases h2 : a = k' <;> simp [alGet, alSet, h1, h2, ih, h]

/-- Rewriting a key with the value it already holds is the identity. -/
theorem alSet_eq_self {κ ν : Type} [DecidableEq κ] (d : List (κ × ν)) (k : κ) (v : ν)
    (h : alGet d k = some v) : alSet d k v = d := by
  induction d with
  | nil => simp [alGet] at h
  | cons hd tl ih =>
      obtain ⟨a, b⟩ := hd
      by_cases h1 : a = k
      · simp [alGet, h1] at h
        simp [alSet, h1, h]
      · simp [alGet, h1] at h
        simp [alSet, h1, ih h]

/-- `findIdx?` of an equality test misses when the element is absent. -/
theorem findIdx_beq_eq_none {l : List String} {x : String} (h : x ∉ l) :
    ∀ i : Nat, l.findIdx? (· == x) i = none := by
  induction l with
  | nil => intro i; simp
  | cons hd tl ih =>
      intro i
      have h1 : ¬ hd = x := fun hh => h (hh ▸ List.mem_cons_self hd tl)
      have h2 : x ∉ tl := fun hh => h (List.mem_cons_of_mem hd hh)
      have hb : (hd == x) = false := beq_eq_false_iff_ne.mpr h1
      simp [List.findIdx?, hb, ih h2]

/-- String concatenation concatenates the underlying character lists. -/
theorem string_data_append (a b : String) : (a ++ b).data = a.data ++ b.data := rfl

/-- An option-button action token `<step>:<row>:<col>` is never the back
token `back:<step>` of the same step: it contains at least two more
colons than the step key does, while the back token contains exactly one
more. -/
theorem option_callback_ne_back (cur s1 s2 : String) :
    cur ++ ":" ++ s1 ++ ":" ++ s2 ≠ "back:" ++ cur := by
  intro h
  have h2 : (cur ++ ":" ++ s1 ++ ":" ++ s2).data = ("back:" ++ cur).data :=
    congrArg String.data h
  simp only [string_data_append] at h2
  have h3 := congrArg (List.count ':') h2
  have c1 : List.count ':' ":".data = 1 := rfl
  have c2 : List.count ':' "back:".data = 1 := rfl
  simp only [List.count_append, c1, c2] at h3
  omega

/-- The done token and the back token of a step differ. -/
theorem done_callback_ne_back (cur : String) : "done:" ++ cur ≠ "back:" ++ cur := by
  intro h
  have h2 : ("done:" ++ cur).data = ("back:" ++ cur).data := congrArg String.data h
  rw [string_data_append, string_data_append] at h2
  exact absurd (List.append_cancel_right h2) (by decide)

/-- C3: recording the activation of a radio button that carries a (truthy)
radio group stores the selection as the step's group-to-value mapping,
setting exactly that group's entry: the group now maps to the button's
value, every other group's entry is preserved, and every other step's
slot is untouched. -/
theorem c3_radio_group_update (st : UserState) (stepKey : String) (bc : ButtonConfig)
    (g : String) (d : List (SelVal × SelVal)) (htype : bc.type = some "radio")
    (hg : bc.radioGroup = some g) (hne : g ≠ "")
    (hstored : alGet st.selections stepKey = some (StepSel.sdict d)) :
    (updateSelection st stepKey bc).selections
        = alSet st.selections stepKey (StepSel.sdict (alSet d (SelVal.vstr g) bc.value)) ∧
      alGet (alSet d (SelVal.vstr g) bc.value) (SelVal.vstr g) = some bc.value ∧
      (∀ g' : String, g' ≠ g →
        alGet (alSet d (SelVal.vstr g) bc.value) (SelVal.vstr g') = alGet d (SelVal.vstr g')) ∧
      (∀ k : String, k ≠ stepKey →
        alGet (updateSelection st stepKey bc).selections k = alGet st.selections k) := by
  have h1 : (updateSelection st stepKey bc).selections
      = alSet st.selections stepKey (StepSel.sdict (alSet d (SelVal.vstr g) bc.value)) := by
    simp [updateSelection, htype, hg, hne, hstored]
  refine ⟨h1, alGet_alSet_self _ _ _, ?_, ?_⟩
  · intro g' hne'
    exact alGet_alSet_ne _ _ _ _ (by simp [hne'])
  · intro k hk
    rw [h1]
    exact alGet_alSet_ne _ _ _ _ hk

/-- C3 witness: updating group `g1` of a step holding groups `g1` and
`g2` keeps `g2` intact. -/
theorem c3_radio_group_update_witness :
    (updateSelection stTwoGroups "s" btnG1Z).selections
        = alSet stTwoGroups.selections "s"
            (StepSel.sdict (alSet [(SelVal.vstr "g1", SelVal.vstr "x"), (SelVal.vstr "g2", SelVal.vstr "y")]
              (SelVal.vstr "g1") btnG1Z.value)) ∧
      alGet (alSet [(SelVal.vstr "g1", SelVal.vstr "x"), (SelVal.vstr "g2", SelVal.vstr "y")]
          (SelVal.vstr "g1") btnG1Z.value) (SelVal.vstr "g1") = some btnG1Z.value ∧
      (∀ g' : String, g' ≠ "g1" →
        alGet (alSet [(SelVal.vstr "g1", SelVal.vstr "x"), (SelVal.vstr "g2", SelVal.vstr "y")]
          (SelVal.vstr "g1") btnG1Z.value) (SelVal.vstr g')
          = alGet [(SelVal.vstr "g1", SelVal.vstr "x"), (SelVal.vstr "g2", SelVal.vstr "y")] (SelVal.vstr g')) ∧
      (∀ k : String, k ≠ "s" →
        alGet (updateSelection stTwoGroups "s" btnG1Z).selections k
          = alGet stTwoGroups.selections k) :=
  c3_radio_group_update stTwoGroups "s" btnG1Z "g1"
    [(SelVal.vstr "g1", SelVal.vstr "x"), (SelVal.vstr "g2", SelVal.vstr "y")]
    rfl rfl (by decide) rfl

/-- C5: a radio button whose configuration lacks the `radioGroup` key is
ignored for state purposes — the whole user state is unchanged, so no
selection is recorded and the single-value fallback of default-kind
buttons is not applied (the source logs a warning and continues). -/
theorem c5_radio_without_group_ignored (st : UserState) (stepKey : String)
    (bc : ButtonConfig) (htype : bc.type = some "radio") (hg : bc.radioGroup = none) :
    updateSelection st stepKey bc = st := by
  simp [updateSelection, htype, hg]

/-- C5 witness: clicking the group-less radio button leaves the state
exactly as it was. -/
theorem c5_radio_without_group_ignored_witness :
    updateSelection stAtColor "color" btnNoGroup = stAtColor :=
  c5_radio_without_group_ignored stAtColor "color" btnNoGroup rfl rfl

/-- C7 counterexample: for the key `missing`, which is not in the step
list, `getNextStepKey` and `getPreviousStepKey` return plain `none` — the
very same value they return for the ordinary end-of-workflow (`wrap` is
the last step) and no-previous-step (`color` is the first step)
conditions.  There is no distinguishable `UnknownStepError`: the source
catches the `ValueError`, logs, and returns `None`, so the claim's
distinguishable-error condition is false. -/
theorem c7_counterexample :
    getNextStepKey wfColorWrap "missing" 0 = none ∧
      getNextStepKey wfColorWrap "wrap" 0 = none ∧
      getPreviousStepKey wfColorWrap "missing" = none ∧
      getPreviousStepKey wfColorWrap "color" = none :=
  ⟨rfl, rfl, rfl, rfl⟩

/-- C7 amended: for every key not present in the ordered step list, both
`getNextStepKey` and `getPreviousStepKey` catch the internal lookup
error, log it, and return the ordinary absent result `none` — the same
value as end-of-workflow / no-previous-step, with no distinguishable
error raised and no state reset. -/
theorem c7_unknown_step_absent (w : Workflow) (cur : String) (skip : Int)
    (h : cur ∉ stepKeys w) :
    getNextStepKey w cur skip = none ∧ getPreviousStepKey w cur = none := by
  have hidx := findIdx_beq_eq_none (l := stepKeys w) (x := cur) h 0
  constructor <;> simp [getNextStepKey, getPreviousStepKey, hidx]

/-- C7 witness: the amended statement at the concrete unknown key. -/
theorem c7_unknown_step_absent_witness :
    "missing" ∉ stepKeys wfColorWrap ∧
      (getNextStepKey wfColorWrap "missing" 0 = none ∧
        getPreviousStepKey wfColorWrap "missing" = none) :=
  ⟨by decide, c7_unknown_step_absent wfColorWrap "missing" 0 (by decide)⟩

/-- C8 counterexample: `get_user_selections` returns `selections.copy()`,
a shallow copy — the returned snapshot dictionary holds the very same
per-step container object (container cell 0) as the internal dictionary.
Mutating the nested list through the snapshot (appending `"y"` via the
shared cell) changes the engine's stored selections view from `["x"]` to
`["x","y"]`, so the returned structure is not independent of internal
state in its nested per-step values. -/
theorem c8_counterexample :
    dictEntries (getUserSelectionsShallow refFixture).1 (getUserSelectionsShallow refFixture).2
        = [("s", 0)] ∧
      dictEntries (getUserSelectionsShallow refFixture).1
          (getUserSelectionsShallow refFixture).1.selRef
        = [("s", 0)] ∧
      derefSelections refFixture refFixture.selRef
        = [("s", some (StepSel.slist [SelVal.vstr "x"]))] ∧
      derefSelections
          (heapWrite (getUserSelectionsShallow refFixture).1 0
            (StepSel.slist [SelVal.vstr "x", SelVal.vstr "y"]))
          (getUserSelectionsShallow refFixture).1.selRef
        = [("s", some (StepSel.slist [SelVal.vstr "x", SelVal.vstr "y"]))] :=
  ⟨rfl, rfl, rfl, rfl⟩

/-- C8 amended: the snapshot is a shallow copy.  The returned dictionary
is a freshly allocated object, distinct from the internal one, so
top-level mutations of the snapshot (setting or adding whole entries)
never change the stored mapping and vice versa; but its entries
reference the very same per-step container objects, so any mutation of a
nested container is observed identically through the snapshot and
through the internal selections. -/
theorem c8_shallow_snapshot (s : RefState) (href : s.selRef < s.dictHeap.length) :
    (getUserSelectionsShallow s).2 ≠ (getUserSelectionsShallow s).1.selRef ∧
      dictEntries (getUserSelectionsShallow s).1 (getUserSelectionsShallow s).2
        = dictEntries s s.selRef ∧
      dictEntries (getUserSelectionsShallow s).1 (getUserSelectionsShallow s).1.selRef
        = dictEntries s s.selRef ∧
      (∀ k : String, ∀ a : Nat,
        dictEntries
            (dictWrite (getUserSelectionsShallow s).1 (getUserSelectionsShallow s).2 k a)
            (getUserSelectionsShallow s).1.selRef
          = dictEntries (getUserSelectionsShallow s).1 (getUserSelectionsShallow s).1.selRef) ∧
      (∀ k : String, ∀ a : Nat,
        dictEntries
            (dictWrite (getUserSelectionsShallow s).1 (getUserSelectionsShallow s).1.selRef k a)
            (getUserSelectionsShallow s).2
          = dictEntries (getUserSelectionsShallow s).1 (getUserSelectionsShallow s).2) ∧
      (∀ a : Nat, ∀ v : StepSel,
        derefSelections (heapWrite (getUserSelectionsShallow s).1 a v)
            (getUserSelectionsShallow s).2
          = derefSelections (heapWrite (getUserSelectionsShallow s).1 a v)
              (getUserSelectionsShallow s).1.selRef) := by
  have href1 : (getUserSelectionsShallow s).1.selRef = s.selRef := rfl
  have hsnap : (getUserSelectionsShallow s).2 = s.dictHeap.length := rfl
  have hne : (getUserSelectionsShallow s).2 ≠ (getUserSelectionsShallow s).1.selRef := by
    rw [href1, hsnap]
    omega
  have hsnapE : dictEntries (getUserSelectionsShallow s).1 (getUserSelectionsShallow s).2
      = dictEntries s s.selRef := by
    show ((s.dictHeap ++ [dictEntries s s.selRef]).get? s.dictHeap.length).getD []
      = dictEntries s s.selRef
    rw [List.get?_concat_length]
    rfl
  have hselE : dictEntries (getUserSelectionsShallow s).1 (getUserSelectionsShallow s).1.selRef
      = dictEntries s s.selRef := by
    show ((s.dictHeap ++ [dictEntries s s.selRef]).get? s.selRef).getD []
      = dictEntries s s.selRef
    rw [List.get?_append href]
    rfl
  refine ⟨hne, hsnapE, hselE, ?_, ?_, ?_⟩
  · intro k a
    show (((getUserSelectionsShallow s).1.dictHeap.set (getUserSelectionsShallow s).2
        (alSet (dictEntries (getUserSelectionsShallow s).1 (getUserSelectionsShallow s).2) k a)).get?
          (getUserSelectionsShallow s).1.selRef).getD []
      = dictEntries (getUserSelectionsShallow s).1 (getUserSelectionsShallow s).1.selRef
    rw [List.get?_set_ne _ _ hne]
    rfl
  · intro k a
    show (((getUserSelectionsShallow s).1.dictHeap.set (getUserSelectionsShallow s).1.selRef
        (alSet (dictEntries (getUserSelectionsShallow s).1 (getUserSelectionsShallow s).1.selRef) k a)).get?
          (getUserSelectionsShallow s).2).getD []
      = dictEntries (getUserSelectionsShallow s).1 (getUserSelectionsShallow s).2
    rw [List.get?_set_ne _ _ (Ne.symm hne)]
    rfl
  · intro a v
    show (dictEntries (heapWrite (getUserSelectionsShallow s).1 a v)
          (getUserSelectionsShallow s).2).map _
      = (dictEntries (heapWrite (getUserSelectionsShallow s).1 a v)
          (getUserSelectionsShallow s).1.selRef).map _
    have h1 : dictEntries (heapWrite (getUserSelectionsShallow s).1 a v)
        (getUserSelectionsShallow s).2
        = dictEntries (getUserSelectionsShallow s).1 (getUserSelectionsShallow s).2 := rfl
    have h2 : dictEntries (heapWrite (getUserSelectionsShallow s).1 a v)
        (getUserSelectionsShallow s).1.selRef
        = dictEntries (getUserSelectionsShallow s).1 (getUserSelectionsShallow s).1.selRef := rfl
    rw [h1, h2, hsnapE, hselE]

/-- C8 witness: the amended shallow-copy statement at the concrete
one-step fixture. -/
theorem c8_shallow_snapshot_witness :
    refFixture.selRef < refFixture.dictHeap.length ∧
      (getUserSelectionsShallow refFixture).2 ≠ (getUserSelectionsShallow refFixture).1.selRef :=
  ⟨by decide, (c8_shallow_snapshot refFixture (by decide)).1⟩

/-- C10: the activation token `pick:-1:-1`, whose row and column indices
are both negative, is not rejected as malformed or out of range: the
engine parses the indices with `int`, resolves the button by Python
negative indexing (last row, last button — the checkbox with value `z`),
records that selection, and re-renders the step — the state has been
mutated. -/
theorem c10_negative_indices_accepted :
    ((processCallbackAndGetResponse wfPick stAtPick "pick:-1:-1").map fun r =>
        (r.text, r.isFinal, r.state))
      = some (escapeMarkdown "Pick", false,
          ⟨some "pick", [("pick", StepSel.slist [SelVal.vstr "z"])]⟩) ∧
      stAtPick.selections = [] :=
  ⟨rfl, rfl⟩

/-- One checkbox activation, characterised: with a list stored for the
step, the slot becomes that list with the button's value membership
toggled, and nothing else in the state changes. -/
theorem updateSelection_checkbox (st : UserState) (stepKey : String) (bc : ButtonConfig)
    (l : List SelVal) (htype : bc.type = some "checkbox")
    (hstored : alGet st.selections stepKey = some (StepSel.slist l)) :
    (updateSelection st stepKey bc).selections
      = alSet st.selections stepKey
          (StepSel.slist (if bc.value ∈ l then l.erase bc.value else l ++ [bc.value])) := by
  simp [updateSelection, htype, hstored]

/-- C4: activating the same checkbox button twice in a row returns the
step's stored `CheckboxSet` to its prior value: the stored list after
the double toggle is a permutation of the prior list, so membership (the
content of a `CheckboxSet`) is exactly restored.  The duplicate-freedom
hypothesis is the invariant the toggling itself maintains, since a value
is appended only when absent and removed when present. -/
theorem c4_checkbox_involution (st : UserState) (stepKey : String) (bc : ButtonConfig)
    (l : List SelVal) (htype : bc.type = some "checkbox")
    (hstored : alGet st.selections stepKey = some (StepSel.slist l)) (hnd : l.Nodup) :
    ∃ l2, alGet (updateSelection (updateSelection st stepKey bc) stepKey bc).selections stepKey
        = some (StepSel.slist l2) ∧ l2.Perm l ∧ ∀ x : SelVal, x ∈ l2 ↔ x ∈ l := by
  by_cases hv : bc.value ∈ l
  · have h1 : (updateSelection st stepKey bc).selections
        = alSet st.selections stepKey (StepSel.slist (l.erase bc.value)) := by
      have hu := updateSelection_checkbox st stepKey bc l htype hstored
      rwa [if_pos hv] at hu
    have hget : alGet (updateSelection st stepKey bc).selections stepKey
        = some (StepSel.slist (l.erase bc.value)) := by
      rw [h1]
      exact alGet_alSet_self _ _ _
    have hvm : bc.value ∉ l.erase bc.value := by
      intro hmem
      exact absurd ((hnd.mem_erase_iff).1 hmem).1 (by simp)
    have h2 : (updateSelection (updateSelection st stepKey bc) stepKey bc).selections
        = alSet (updateSelection st stepKey bc).selections stepKey
            (StepSel.slist (l.erase bc.value ++ [bc.value])) := by
      have hu := updateSelection_checkbox (updateSelection st stepKey bc) stepKey bc
        (l.erase bc.value) htype hget
      rwa [if_neg hvm] at hu
    have hperm : (l.erase bc.value ++ [bc.value]).Perm l :=
      (List.perm_append_singleton bc.value (l.erase bc.value)).trans
        (List.perm_cons_erase hv).symm
    refine ⟨l.erase bc.value ++ [bc.value], ?_, hperm, fun x => hperm.mem_iff⟩
    rw [h2]
    exact alGet_alSet_self _ _ _
  · have h1 : (updateSelection st stepKey bc).selections
        = alSet st.selections stepKey (StepSel.slist (l ++ [bc.value])) := by
      have hu := updateSelection_checkbox st stepKey bc l htype hstored
      rwa [if_neg hv] at hu
    have hget : alGet (updateSelection st stepKey bc).selections stepKey
        = some (StepSel.slist (l ++ [bc.value])) := by
      rw [h1]
      exact alGet_alSet_self _ _ _
    have hvm : bc.value ∈ l ++ [bc.value] := by simp
    have herase : (l ++ [bc.value]).erase bc.value = l := by
      rw [List.erase_append_right _ hv]
      simp
    have h2 : (updateSelection (updateSelection st stepKey bc) stepKey bc).selections
        = alSet (updateSelection st stepKey bc).selections stepKey (StepSel.slist l) := by
      have hu := updateSelection_checkbox (updateSelection st stepKey bc) stepKey bc
        (l ++ [bc.value]) htype hget
      rwa [if_pos hvm, herase] at hu
    refine ⟨l, ?_, List.Perm.refl l, fun x => Iff.rfl⟩
    rw [h2]
    exact alGet_alSet_self _ _ _

/-- C4 witness: double-toggling checkbox `y` on the list `[y, z]`
restores its membership content. -/
theorem c4_checkbox_involution_witness :
    ∃ l2, alGet (updateSelection (updateSelection stPicked "pick" btnCheckY) "pick" btnCheckY).selections
          "pick"
        = some (StepSel.slist l2) ∧ l2.Perm [SelVal.vstr "y", SelVal.vstr "z"] ∧
        ∀ x : SelVal, x ∈ l2 ↔ x ∈ [SelVal.vstr "y", SelVal.vstr "z"] :=
  c4_checkbox_involution stPicked "pick" btnCheckY [SelVal.vstr "y", SelVal.vstr "z"]
    rfl rfl (by decide)

/-- Radio pre-selection only touches the selections, never the step pointer. -/
theorem materialize_currentStep (w : Workflow) (st : UserState) (cur : String)
    (sc : StepConfig) : (materializeDefaults w st cur sc).1.currentStep = st.currentStep := by
  unfold materializeDefaults
  dsimp only
  split
  · split
    · split <;> rfl
    · split <;> rfl
  · rfl

/-- Rendering never changes the user's current step. -/
theorem generate_state_currentStep (w : Workflow) (st : UserState) :
    (generateKeyboardAndText w st).state.currentStep = st.currentStep := by
  cases hc : st.currentStep with
  | none => simp [generateKeyboardAndText, hc]
  | some cur =>
      cases hs : getStepConfig w cur with
      | none => simp [generateKeyboardAndText, hc, hs]
      | some sc => simp [generateKeyboardAndText, hc, hs, materialize_currentStep]

/-- The rendered output under a valid current step, in terms of its
three components. -/
theorem generate_eq (w : Workflow) (st : UserState) (cur : String) (sc : StepConfig)
    (hcur : st.currentStep = some cur) (hsc : getStepConfig w cur = some sc) :
    generateKeyboardAndText w st
      = ⟨some (buildOptionRows cur sc (materializeDefaults w st cur sc).2 ++
            doneRows cur sc ++ backRows w cur sc),
         escapeMarkdown (sc.description.getD "Please make a selection:"),
         (materializeDefaults w st cur sc).1⟩ := by
  simp [generateKeyboardAndText, hcur, hsc]

/-- The state carried by an ongoing response is the renderer's state. -/
theorem ongoing_state (w : Workflow) (st : UserState) (override : Option String) :
    (ongoingResponse w st override).state = (generateKeyboardAndText w st).state := by
  unfold ongoingResponse
  dsimp only
  split <;> rfl

/-- An ongoing response is never final. -/
theorem ongoing_isFinal (w : Workflow) (st : UserState) (override : Option String) :
    (ongoingResponse w st override).isFinal = false := by
  unfold ongoingResponse
  dsimp only
  split <;> rfl

/-- With a nonempty override text the ongoing response is exactly the
override text over the renderer's keyboard and state. -/
theorem ongoing_override (w : Workflow) (st : UserState) (t : String) (ht : t ≠ "") :
    ongoingResponse w st (some t)
      = ⟨t, (generateKeyboardAndText w st).markup, false,
         (generateKeyboardAndText w st).state⟩ := by
  simp [ongoingResponse, ht]

/-- A `done:<k>` token with `k` equal to the (truthy) current step
reaches the done branch with a matching step key. -/
theorem processCallback_done_token (w : Workflow) (st : UserState) (cur cb : String)
    (hcur : st.currentStep = some cur) (hne : cur ≠ "")
    (hcb : splitOnColon cb = ["done", cur]) :
    processCallbackAndGetResponse w st cb = processDone w st cur cur := by
  simp only [processCallbackAndGetResponse, hcur]
  rw [if_neg hne]
  simp [processWithCurrent, hcb]

/-- C1 counterexample: on the manual step `color` with its required
radio group `g` unsatisfied (no selections at all), activating
`done:color` does stay on `color` and does render the override warning —
but it mutates state: the renderer's radio pre-selection persists
`{g: red}` into the selections, which were empty before.  The claim's
"performs no state mutation" conjunct is therefore false at this input. -/
theorem c1_counterexample :
    ((processCallbackAndGetResponse wfColorWrap stAtColor "done:color").map fun r =>
        (r.text, r.state.currentStep, r.state.selections))
      = some (validationWarningText, some "color",
          [("color", StepSel.sdict [(SelVal.vstr "g", SelVal.vstr "red")])]) ∧
      stAtColor.selections = [] :=
  ⟨rfl, rfl⟩

/-- C1 amended: activating `done:<step>` for the user's current manual
step with failing validation leaves `currentStep` unchanged and renders
the same step with the override warning text; the only state change is
the renderer's radio pre-selection (the resulting state is exactly the
state `_generate_keyboard_and_text` produces for the current step).
Only when validation passes does the engine advance `currentStep` to the
next step key. -/
theorem c1_done_validation_gate (w : Workflow) (st : UserState) (cur cb : String)
    (hcur : st.currentStep = some cur) (hne : cur ≠ "")
    (hcb : splitOnColon cb = ["done", cur]) :
    (validateManualStepCompletion w st cur = some false →
      ∃ r, processCallbackAndGetResponse w st cb = some r ∧
        r.text = validationWarningText ∧ r.isFinal = false ∧
        r.markup = (generateKeyboardAndText w st).markup ∧
        r.state = (generateKeyboardAndText w st).state ∧
        r.state.currentStep = some cur) ∧
    (validateManualStepCompletion w st cur = some true →
      ∃ r, processCallbackAndGetResponse w st cb = some r ∧
        r.state.currentStep = getNextStepKey w cur 0) := by
  have hdisp := processCallback_done_token w st cur cb hcur hne hcb
  constructor
  · intro hval
    have hp : processDone w st cur cur
        = some (ongoingResponse w st (some validationWarningText)) := by
      simp [processDone, hval]
    have hwne : validationWarningText ≠ "" := by decide
    have ho := ongoing_override w st validationWarningText hwne
    refine ⟨ongoingResponse w st (some validationWarningText),
      by rw [hdisp, hp], by rw [ho], by rw [ho], by rw [ho], by rw [ho], ?_⟩
    rw [ho]
    show (generateKeyboardAndText w st).state.currentStep = some cur
    rw [generate_state_currentStep]
    exact hcur
  · intro hval
    cases hn : getNextStepKey w cur 0 with
    | none =>
        have hp : processDone w st cur cur
            = some ⟨workflowSummaryText { st with currentStep := none }, none, true,
                { st with currentStep := none }⟩ := by
          simp [processDone, hval, hn]
        exact ⟨_, by rw [hdisp, hp], by simp [hn]⟩
    | some k =>
        have hp : processDone w st cur cur
            = some (ongoingResponse w { st with currentStep := some k } none) := by
          simp [processDone, hval, hn]
        refine ⟨_, by rw [hdisp, hp], ?_⟩
        rw [ongoing_state, generate_state_currentStep]

/-- C1 witness: the amended statement applied on the concrete fixture,
failing-validation side. -/
theorem c1_done_validation_gate_witness :
    validateManualStepCompletion wfColorWrap stAtColor "color" = some false ∧
      ∃ r, processCallbackAndGetResponse wfColorWrap stAtColor "done:color" = some r ∧
        r.text = validationWarningText ∧ r.isFinal = false ∧
        r.markup = (generateKeyboardAndText wfColorWrap stAtColor).markup ∧
        r.state = (generateKeyboardAndText wfColorWrap stAtColor).state ∧
        r.state.currentStep = some "color" :=
  ⟨rfl,
   (c1_done_validation_gate wfColorWrap stAtColor "color" "done:color" rfl
      (by decide) rfl).1 rfl⟩

/-- C6 counterexample: in the workflow whose first step key is the
empty string, step `second` declares a back control and a previous step
exists (`getPreviousStepKey` returns `some ""`), yet the engine
suppresses the back control because the source tests the Python
truthiness of the returned key, which is false for the empty string —
every rendered button's token differs from `back:second`.  The claim's
"if and only if a back control is declared AND a previous step exists"
is therefore false at this input. -/
theorem c6_counterexample :
    stepSecond.backButton = true ∧
      getPreviousStepKey wfEmptyFirst "second" = some "" ∧
      (getPreviousStepKey wfEmptyFirst "second").isSome = true ∧
      ((generateKeyboardAndText wfEmptyFirst stAtSecond).markup.map fun rows =>
          rows.all fun row => row.all fun b => b.callbackData != "back:second")
        = some true :=
  ⟨rfl, rfl, rfl, rfl⟩

/-- C6 amended: the rendered keyboard contains a back control (a button
whose action token is `back:<step>`) if and only if the step declares a
truthy `backButton` AND the previous step key is truthy — which
coincides with "a previous step exists" except when the previous step's
key is the empty string, since the source tests the key's Python
truthiness.  In particular on the first step the control is absent from
the rendered rows altogether, not merely disabled.  Option buttons can
never masquerade as the back control since their tokens carry two more
colons than the step key, and the done control's token differs from the
back token. -/
theorem c6_back_control (w : Workflow) (st : UserState) (cur : String) (sc : StepConfig)
    (hcur : st.currentStep = some cur) (hsc : getStepConfig w cur = some sc) :
    ∃ rows, (generateKeyboardAndText w st).markup = some rows ∧
      ((∃ row ∈ rows, ∃ b ∈ row, b.callbackData = "back:" ++ cur) ↔
        (sc.backButton = true ∧ optStrTruthy (getPreviousStepKey w cur) = true)) := by
  refine ⟨buildOptionRows cur sc (materializeDefaults w st cur sc).2 ++ doneRows cur sc ++
      backRows w cur sc, ?_, ?_⟩
  · rw [generate_eq w st cur sc hcur hsc]
  constructor
  · rintro ⟨row, hrow, b, hb, hcbk⟩
    rcases List.mem_append.1 hrow with hrow1 | hrow2
    · rcases List.mem_append.1 hrow1 with hA | hB
      · obtain ⟨rp, hrp, rfl⟩ := List.mem_map.1 hA
        obtain ⟨bp, hbp, rfl⟩ := List.mem_map.1 hb
        exact absurd hcbk (option_callback_ne_back cur (toString rp.1) (toString bp.1))
      · by_cases hm : sc.completionType.getD "auto" = "manual"
        · rw [doneRows, if_pos hm] at hB
          simp at hB
          subst hB
          simp at hb
          subst hb
          exact absurd hcbk (done_callback_ne_back cur)
        · rw [doneRows, if_neg hm] at hB
          simp at hB
    · by_cases hcond : sc.backButton = true ∧ optStrTruthy (getPreviousStepKey w cur) = true
      · exact hcond
      · rw [backRows, if_neg hcond] at hrow2
        simp at hrow2
  · intro hcond
    refine ⟨[⟨BACK_EMOJI ++ " Go Back", "back:" ++ cur⟩], ?_,
      ⟨⟨BACK_EMOJI ++ " Go Back", "back:" ++ cur⟩, by simp, rfl⟩⟩
    apply List.mem_append.2
    right
    rw [backRows, if_pos hcond]
    simp

/-- C6 witness: step `wrap` declares a back control and its previous
step key `color` is truthy, so its rendered rows contain the back
control. -/
theorem c6_back_control_witness :
    ∃ rows, (generateKeyboardAndText wfColorWrap stAtWrap).markup = some rows ∧
      ((∃ row ∈ rows, ∃ b ∈ row, b.callbackData = "back:" ++ "wrap") ↔
        (stepWrap.backButton = true ∧
          optStrTruthy (getPreviousStepKey wfColorWrap "wrap") = true)) :=
  c6_back_control wfColorWrap stAtWrap "wrap" stepWrap rfl rfl

/-- Once the changed flag is set, it stays set. -/
theorem preselect_flag_true (bs : List ButtonConfig) (temp : List (SelVal × SelVal)) :
    (preselectButtons bs temp true).2 = true := by
  induction bs generalizing temp with
  | nil => rfl
  | cons bc rest ih =>
      by_cases hbc : bc.type = some "radio" ∧ bc.radioGroup.isSome
      · obtain ⟨hty, hiso⟩ := hbc
        obtain ⟨g', hg'⟩ := Option.isSome_iff_exists.1 hiso
        cases hlook : alGet temp (SelVal.vstr g') with
        | none => simp [preselectButtons, hty, hg', hlook, ih]
        | some v =>
            by_cases hv : v = SelVal.vnone <;>
              simp [preselectButtons, hty, hg', hlook, hv, ih]
      · simp [preselectButtons, hbc, ih]

/-- A pass that reports no change leaves the dictionary untouched. -/
theorem preselect_unchanged (bs : List ButtonConfig) (temp : List (SelVal × SelVal))
    (h : (preselectButtons bs temp false).2 = false) :
    (preselectButtons bs temp false).1 = temp := by
  induction bs generalizing temp with
  | nil => rfl
  | cons bc rest ih =>
      by_cases hbc : bc.type = some "radio" ∧ bc.radioGroup.isSome
      · obtain ⟨hty, hiso⟩ := hbc
        obtain ⟨g', hg'⟩ := Option.isSome_iff_exists.1 hiso
        cases hlook : alGet temp (SelVal.vstr g') with
        | none =>
            exfalso
            have := preselect_flag_true rest (alSet temp (SelVal.vstr g') bc.value)
            simp [preselectButtons, hty, hg', hlook, this] at h
        | some v =>
            by_cases hv : v = SelVal.vnone
            · exfalso
              have := preselect_flag_true rest (alSet temp (SelVal.vstr g') bc.value)
              simp [preselectButtons, hty, hg', hlook, hv, this] at h
            · have hs : preselectButtons (bc :: rest) temp false
                  = preselectButtons rest temp false := by
                simp [preselectButtons, hty, hg', hlook, hv]
              rw [hs] at h ⊢
              exact ih temp h
      · have hs : preselectButtons (bc :: rest) temp false
            = preselectButtons rest temp false := by
          simp [preselectButtons, hbc]
        rw [hs] at h ⊢
        exact ih temp h

/-- Pushing a declared value onto the resolution when nothing usable is
recorded: the recorded slot being absent or `None`, the next declared
value takes over. -/
theorem resolveDefault_push (v : SelVal) (o : Option SelVal) (vals : List SelVal)
    (h : o = none ∨ o = some SelVal.vnone) :
    resolveDefault o (v :: vals) = resolveDefault (some v) vals := by
  have hmain : ∀ rest : List SelVal,
      some (firstNonNoneValue (v :: rest)) = resolveDefault (some v) rest := by
    intro rest
    cases v with
    | vnone =>
        cases rest with
        | nil => simp [firstNonNoneValue, resolveDefault]
        | cons a l => simp [firstNonNoneValue, resolveDefault]
    | vstr s => simp [firstNonNoneValue, resolveDefault]
    | vbool b => simp [firstNonNoneValue, resolveDefault]
  rcases h with h | h <;> subst h <;> simp [resolveDefault, hmain vals]

/-- A recorded non-`None` value survives resolution unchanged. -/
theorem resolveDefault_keep (v : SelVal) (vals : List SelVal) (hv : v ≠ SelVal.vnone) :
    resolveDefault (some v) vals = some v := by
  simp [resolveDefault, hv]

/-- The pre-selection pass, characterised per group: the final binding of
a group is the resolution of its prior binding against the group's
declared radio values in order. -/
theorem preselect_lookup (bs : List ButtonConfig) (temp : List (SelVal × SelVal))
    (c : Bool) (g : String) :
    alGet (preselectButtons bs temp c).1 (SelVal.vstr g)
      = resolveDefault (alGet temp (SelVal.vstr g)) (radioValuesOfGroup bs g) := by
  induction bs generalizing temp c with
  | nil =>
      have hvals : radioValuesOfGroup [] g = [] := rfl
      rw [hvals]
      cases h : alGet temp (SelVal.vstr g) with
      | none => simp [preselectButtons, resolveDefault, h]
      | some v =>
          by_cases hv : v = SelVal.vnone <;>
            simp [preselectButtons, resolveDefault, h, hv]
  | cons bc rest ih =>
      by_cases hbc : bc.type = some "radio" ∧ bc.radioGroup.isSome
      · obtain ⟨hty, hiso⟩ := hbc
        obtain ⟨g', hg'⟩ := Option.isSome_iff_exists.1 hiso
        by_cases hgg : g' = g
        · rw [hgg] at hg'
          have hvals : radioValuesOfGroup (bc :: rest) g
              = bc.value :: radioValuesOfGroup rest g := by
            simp [radioValuesOfGroup, hty, hg']
          rw [hvals]
          cases hlook : alGet temp (SelVal.vstr g) with
          | none =>
              have hstep : preselectButtons (bc :: rest) temp c
                  = preselectButtons rest (alSet temp (SelVal.vstr g) bc.value) true := by
                simp [preselectButtons, hty, hg', hlook]
              rw [hstep, ih, alGet_alSet_self,
                resolveDefault_push bc.value _ _ (Or.inl rfl)]
          | some v =>
              by_cases hv : v = SelVal.vnone
              · subst hv
                have hstep : preselectButtons (bc :: rest) temp c
                    = preselectButtons rest (alSet temp (SelVal.vstr g) bc.value) true := by
                  simp [preselectButtons, hty, hg', hlook]
                rw [hstep, ih, alGet_alSet_self,
                  resolveDefault_push bc.value _ _ (Or.inr rfl)]
              · have hstep : preselectButtons (bc :: rest) temp c
                    = preselectButtons rest temp c := by
                  simp [preselectButtons, hty, hg', hlook, hv]
                rw [hstep, ih, hlook, resolveDefault_keep v _ hv,
                  resolveDefault_keep v _ hv]
        · have hvals : radioValuesOfGroup (bc :: rest) g = radioValuesOfGroup rest g := by
            simp [radioValuesOfGroup, hty, hg', hgg]
          rw [hvals]
          have hne : SelVal.vstr g ≠ SelVal.vstr g' := by
            intro hh
            exact hgg (SelVal.vstr.inj hh).symm
          cases hlook : alGet temp (SelVal.vstr g') with
          | none =>
              have hstep : preselectButtons (bc :: rest) temp c
                  = preselectButtons rest (alSet temp (SelVal.vstr g') bc.value) true := by
                simp [preselectButtons, hty, hg', hlook]
              rw [hstep, ih, alGet_alSet_ne _ _ _ _ hne]
          | some v =>
              by_cases hv : v = SelVal.vnone
              · subst hv
                have hstep : preselectButtons (bc :: rest) temp c
                    = preselectButtons rest (alSet temp (SelVal.vstr g') bc.value) true := by
                  simp [preselectButtons, hty, hg', hlook]
                rw [hstep, ih, alGet_alSet_ne _ _ _ _ hne]
              · have hstep : preselectButtons (bc :: rest) temp c
                    = preselectButtons rest temp c := by
                  simp [preselectButtons, hty, hg', hlook, hv]
                rw [hstep, ih]
      · have hstep : preselectButtons (bc :: rest) temp c
            = preselectButtons rest temp c := by
          simp [preselectButtons, hbc]
        have hvals : radioValuesOfGroup (bc :: rest) g = radioValuesOfGroup rest g := by
          by_cases h1 : bc.type = some "radio" ∧ bc.radioGroup = some g
          · exact absurd ⟨h1.1, by simp [h1.2]⟩ hbc
          · simp [radioValuesOfGroup, h1]
        rw [hstep, hvals, ih]

/-- After a manual-radio render, the step slot holds exactly the
dictionary produced by the pre-selection pass over the coerced prior
slot. -/
theorem materialize_lookup (w : Workflow) (st : UserState) (cur : String)
    (sc : StepConfig) (hman : sc.completionType.getD "auto" = "manual")
    (hg : radioGroupsFor w cur ≠ []) :
    alGet (materializeDefaults w st cur sc).1.selections cur
      = some (StepSel.sdict
          (preselectButtons sc.options.flatten (coerceBase (alGet st.selections cur)) false).1) := by
  unfold materializeDefaults
  dsimp only
  rw [if_pos ⟨hman, hg⟩]
  rcases hsel : alGet st.selections cur with _ | sel
  · simp only [coerceBase]
    by_cases hp : (preselectButtons sc.options.flatten [] false).2 = true
    · simp only [hp, if_true]
      exact alGet_alSet_self _ _ _
    · have hp' : (preselectButtons sc.options.flatten [] false).2 = false := by
        simpa using hp
      rw [preselect_unchanged _ _ hp']
      simp only [hp', Bool.false_eq_true, if_false]
      exact alGet_alSet_self _ _ _
  · cases sel with
    | prim v =>
        simp only [coerceBase]
        by_cases hp : (preselectButtons sc.options.flatten [] false).2 = true
        · simp only [hp, if_true]
          exact alGet_alSet_self _ _ _
        · have hp' : (preselectButtons sc.options.flatten [] false).2 = false := by
            simpa using hp
          rw [preselect_unchanged _ _ hp']
          simp only [hp', Bool.false_eq_true, if_false]
          exact alGet_alSet_self _ _ _
    | sdict d =>
        simp only [coerceBase]
        by_cases hp : (preselectButtons sc.options.flatten d false).2 = true
        · simp only [hp, if_true]
          exact alGet_alSet_self _ _ _
        · have hp' : (preselectButtons sc.options.flatten d false).2 = false := by
            simpa using hp
          rw [preselect_unchanged _ _ hp']
          simp only [hp', Bool.false_eq_true, if_false]
          exact hsel
    | slist l =>
        simp only [coerceBase]
        by_cases hp : (preselectButtons sc.options.flatten [] false).2 = true
        · simp only [hp, if_true]
          exact alGet_alSet_self _ _ _
        · have hp' : (preselectButtons sc.options.flatten [] false).2 = false := by
            simpa using hp
          rw [preselect_unchanged _ _ hp']
          simp only [hp', Bool.false_eq_true, if_false]
          exact alGet_alSet_self _ _ _

/-- When the first non-`None` scan still returns `None`, every scanned
value was `None`. -/
theorem firstNonNoneValue_all_vnone (vals : List SelVal)
    (h : firstNonNoneValue vals = SelVal.vnone) : ∀ v ∈ vals, v = SelVal.vnone := by
  induction vals with
  | nil => intro v hv; simp at hv
  | cons a rest ih =>
      intro v hv
      cases a with
      | vnone =>
          rcases List.mem_cons.1 hv with hv1 | hv2
          · exact hv1
          · exact ih (by simpa [firstNonNoneValue] using h) v hv2
      | vstr s => simp [firstNonNoneValue] at h
      | vbool b => simp [firstNonNoneValue] at h

/-- Resolution against a nonempty declared-value list always yields a
binding, and can only yield `None` when every declared value is `None`. -/
theorem resolveDefault_stable (o : Option SelVal) (vals : List SelVal)
    (hvals : vals ≠ []) :
    ∃ v, resolveDefault o vals = some v ∧
      (v = SelVal.vnone → ∀ u ∈ vals, u = SelVal.vnone) := by
  rcases o with _ | u
  · refine ⟨firstNonNoneValue vals, by simp [resolveDefault, hvals], ?_⟩
    exact firstNonNoneValue_all_vnone vals
  · by_cases hu : u = SelVal.vnone
    · subst hu
      refine ⟨firstNonNoneValue vals, by simp [resolveDefault, hvals], ?_⟩
      exact firstNonNoneValue_all_vnone vals
    · exact ⟨u, resolveDefault_keep u vals hu, fun h => absurd h hu⟩

/-- A dictionary on which every radio button's group already carries a
binding that the pass would rewrite with the same value is a fixed point
of the pre-selection pass. -/
theorem preselect_stable (bs : List ButtonConfig) (temp : List (SelVal × SelVal)) (c : Bool)
    (h : ∀ bc ∈ bs, bc.type = some "radio" → ∀ g : String, bc.radioGroup = some g →
      ∃ v, alGet temp (SelVal.vstr g) = some v ∧ (v = SelVal.vnone → bc.value = SelVal.vnone)) :
    (preselectButtons bs temp c).1 = temp := by
  induction bs generalizing c with
  | nil => rfl
  | cons bc rest ih =>
      have hrest : ∀ bc' ∈ rest, bc'.type = some "radio" → ∀ g : String,
          bc'.radioGroup = some g →
          ∃ v, alGet temp (SelVal.vstr g) = some v ∧
            (v = SelVal.vnone → bc'.value = SelVal.vnone) :=
        fun bc' hm => h bc' (List.mem_cons_of_mem bc hm)
      by_cases hbc : bc.type = some "radio" ∧ bc.radioGroup.isSome
      · obtain ⟨hty, hiso⟩ := hbc
        obtain ⟨g', hg'⟩ := Option.isSome_iff_exists.1 hiso
        obtain ⟨v, hlook, himp⟩ := h bc (List.mem_cons_self bc rest) hty g' hg'
        by_cases hv : v = SelVal.vnone
        · have hval : bc.value = SelVal.vnone := himp hv
          subst hv
          have hset : alSet temp (SelVal.vstr g') bc.value = temp := by
            rw [hval]
            exact alSet_eq_self _ _ _ hlook
          have hstep : preselectButtons (bc :: rest) temp c
              = preselectButtons rest (alSet temp (SelVal.vstr g') bc.value) true := by
            simp [preselectButtons, hty, hg', hlook]
          rw [hstep, hset]
          exact ih true hrest
        · have hstep : preselectButtons (bc :: rest) temp c
              = preselectButtons rest temp c := by
            simp [preselectButtons, hty, hg', hlook, hv]
          rw [hstep]
          exact ih c hrest
      · have hstep : preselectButtons (bc :: rest) temp c
            = preselectButtons rest temp c := by
          simp [preselectButtons, hbc]
        rw [hstep]
        exact ih c hrest

/-- A radio button of group `g` contributes its value to the group's
declared-value list. -/
theorem mem_radioValuesOfGroup (bs : List ButtonConfig) (bc : ButtonConfig) (g : String)
    (hm : bc ∈ bs) (hty : bc.type = some "radio") (hg : bc.radioGroup = some g) :
    bc.value ∈ radioValuesOfGroup bs g :=
  List.mem_filterMap.2 ⟨bc, hm, by simp [hty, hg]⟩

/-- Every group of `radioGroupsFor` comes from some radio button of the
step that carries it. -/
theorem radioGroupsFor_exists (w : Workflow) (cur : String) (sc : StepConfig) (g : String)
    (hsc : getStepConfig w cur = some sc) (hgm : g ∈ radioGroupsFor w cur) :
    ∃ bc ∈ sc.options.flatten, bc.type = some "radio" ∧ bc.radioGroup = some g := by
  rw [radioGroupsFor, hsc] at hgm
  have hgm' := List.mem_dedup.1 hgm
  obtain ⟨bc, hbm, hif⟩ := List.mem_filterMap.1 hgm'
  by_cases hc : bc.type = some "radio" ∧ bc.radioGroup.isSome
  · rw [if_pos hc] at hif
    exact ⟨bc, hbm, hc.1, hif⟩
  · rw [if_neg hc] at hif
    simp at hif

/-- A state whose step slot already holds a pass-stable dictionary is a
fixed point of the renderer's pre-selection. -/
theorem materialize_fixpoint (w : Workflow) (st1 : UserState) (cur : String)
    (sc : StepConfig) (hman : sc.completionType.getD "auto" = "manual")
    (hg : radioGroupsFor w cur ≠ []) (m : List (SelVal × SelVal))
    (hlook : alGet st1.selections cur = some (StepSel.sdict m))
    (hstable : (preselectButtons sc.options.flatten m false).1 = m) :
    (materializeDefaults w st1 cur sc).1 = st1 := by
  unfold materializeDefaults
  dsimp only
  rw [if_pos ⟨hman, hg⟩, hlook]
  by_cases hp : (preselectButtons sc.options.flatten m false).2 = true
  · simp only [hp, if_true]
    rw [hstable, alSet_eq_self _ _ _ hlook]
  · have hp' : (preselectButtons sc.options.flatten m false).2 = false := by
      simpa using hp
    simp only [hp', Bool.false_eq_true, if_false]

/-- C2 counterexample: on the manual step `size`, group `h` has no
recorded value, yet rendering persists `big` — the value of the group's
second declared radio button — because the first declared button `Any`
carries no value (`None`) and the pass re-fires on a `None` binding.
The claim's "selects the first declared radio button's value" is false
at this input. -/
theorem c2_counterexample :
    alGet (generateKeyboardAndText wfSize stAtSize).state.selections "size"
        = some (StepSel.sdict [(SelVal.vstr "h", SelVal.vstr "big")]) ∧
      specFirstDeclaredRadioValue stepSize "h" = some SelVal.vnone ∧
      SelVal.vstr "big" ≠ SelVal.vnone ∧
      alGet stAtSize.selections "size" = none :=
  ⟨rfl, rfl, by decide, rfl⟩

/-- C2 amended: rendering a manual step with radio groups persists, for
each group, the resolution of its prior binding — a recorded non-`None`
value is kept, and a missing or `None` binding becomes the value of the
group's first declared radio button carrying a non-`None` value (which
is the first declared button's value whenever every declared value is
non-`None`, and stays `None` when every declared value is `None`) — into
the user's selections before rendering.  The pre-selection is
deterministic (it is a function of the definition and prior state) and
idempotent: rendering again without intervening activations leaves the
state, and hence the step's `RadioState`, exactly the same. -/
theorem c2_radio_preselect (w : Workflow) (st : UserState) (cur : String)
    (sc : StepConfig) (hcur : st.currentStep = some cur)
    (hsc : getStepConfig w cur = some sc)
    (hman : sc.completionType.getD "auto" = "manual")
    (hg : radioGroupsFor w cur ≠ []) :
    (∃ m, alGet (generateKeyboardAndText w st).state.selections cur
        = some (StepSel.sdict m) ∧
      ∀ g : String, alGet m (SelVal.vstr g)
        = resolveDefault (alGet (coerceBase (alGet st.selections cur)) (SelVal.vstr g))
            (radioValuesOfGroup sc.options.flatten g)) ∧
    (generateKeyboardAndText w ((generateKeyboardAndText w st).state)).state
      = (generateKeyboardAndText w st).state := by
  have hstate : (generateKeyboardAndText w st).state = (materializeDefaults w st cur sc).1 := by
    rw [generate_eq w st cur sc hcur hsc]
  have hlookup := materialize_lookup w st cur sc hman hg
  have hlook1 : alGet (generateKeyboardAndText w st).state.selections cur
      = some (StepSel.sdict
          (preselectButtons sc.options.flatten (coerceBase (alGet st.selections cur)) false).1) := by
    rw [hstate]
    exact hlookup
  constructor
  · exact ⟨_, hlook1, fun g => preselect_lookup _ _ _ g⟩
  · have h1cur : ((generateKeyboardAndText w st).state).currentStep = some cur := by
      rw [generate_state_currentStep]
      exact hcur
    have hstable : (preselectButtons sc.options.flatten
        (preselectButtons sc.options.flatten (coerceBase (alGet st.selections cur)) false).1
        false).1
        = (preselectButtons sc.options.flatten (coerceBase (alGet st.selections cur)) false).1 := by
      apply preselect_stable
      intro bc hbm hty g hgr
      have hlk := preselect_lookup sc.options.flatten
        (coerceBase (alGet st.selections cur)) false g
      have hmem : bc.value ∈ radioValuesOfGroup sc.options.flatten g :=
        mem_radioValuesOfGroup _ _ _ hbm hty hgr
      have hne : radioValuesOfGroup sc.options.flatten g ≠ [] := by
        intro hnil
        rw [hnil] at hmem
        simp at hmem
      obtain ⟨v, hres, himp⟩ := resolveDefault_stable
        (alGet (coerceBase (alGet st.selections cur)) (SelVal.vstr g)) _ hne
      exact ⟨v, hlk.trans hres, fun hv => himp hv bc.value hmem⟩
    have hfix := materialize_fixpoint w ((generateKeyboardAndText w st).state) cur sc
      hman hg _ hlook1 hstable
    have hst2 : (generateKeyboardAndText w ((generateKeyboardAndText w st).state)).state
        = (materializeDefaults w ((generateKeyboardAndText w st).state) cur sc).1 := by
      rw [generate_eq w _ cur sc h1cur hsc]
    rw [hst2, hfix]

/-- C2 witness: the amended statement on the concrete fixture (group `g`
resolves to `red`, the first declared value, and the second render is a
fixed point). -/
theorem c2_radio_preselect_witness :
    (∃ m, alGet (generateKeyboardAndText wfColorWrap stAtColor).state.selections "color"
        = some (StepSel.sdict m) ∧
      ∀ g : String, alGet m (SelVal.vstr g)
        = resolveDefault
            (alGet (coerceBase (alGet stAtColor.selections "color")) (SelVal.vstr g))
            (radioValuesOfGroup stepColor.options.flatten g)) ∧
    (generateKeyboardAndText wfColorWrap
        ((generateKeyboardAndText wfColorWrap stAtColor).state)).state
      = (generateKeyboardAndText wfColorWrap stAtColor).state :=
  c2_radio_preselect wfColorWrap stAtColor "color" stepColor rfl rfl rfl (by decide)

/-- C9: for a manual-completion step each of whose radio groups comes
from at least one radio button carrying a non-`None` value, the
manual-completion validator returns true on the state produced by
generating the step's UI — rendering's radio pre-selection fills every
required group with a non-`None` value, so in the normal render-then-done
flow the validation-failure warning branch cannot be taken. -/
theorem c9_validator_after_render (w : Workflow) (st : UserState) (cur : String)
    (sc : StepConfig) (hcur : st.currentStep = some cur)
    (hsc : getStepConfig w cur = some sc)
    (hman : sc.completionType.getD "auto" = "manual")
    (hvals : ∀ g ∈ radioGroupsFor w cur, ∃ bc ∈ sc.options.flatten,
      bc.type = some "radio" ∧ bc.radioGroup = some g ∧ bc.value ≠ SelVal.vnone) :
    validateManualStepCompletion w (generateKeyboardAndText w st).state cur = some true := by
  by_cases hg : radioGroupsFor w cur = []
  · simp [validateManualStepCompletion, hsc, hman, hg]
  · have hstate : (generateKeyboardAndText w st).state = (materializeDefaults w st cur sc).1 := by
      rw [generate_eq w st cur sc hcur hsc]
    have hlookup := materialize_lookup w st cur sc hman hg
    have hall : ∀ g ∈ radioGroupsFor w cur,
        ∃ v, alGet (preselectButtons sc.options.flatten
            (coerceBase (alGet st.selections cur)) false).1 (SelVal.vstr g)
          = some v ∧ v ≠ SelVal.vnone := by
      intro g hgm
      obtain ⟨bc, hbm, hty, hgr, hval⟩ := hvals g hgm
      have hlk := preselect_lookup sc.options.flatten
        (coerceBase (alGet st.selections cur)) false g
      have hmem : bc.value ∈ radioValuesOfGroup sc.options.flatten g :=
        mem_radioValuesOfGroup _ _ _ hbm hty hgr
      have hne : radioValuesOfGroup sc.options.flatten g ≠ [] := by
        intro hnil
        rw [hnil] at hmem
        simp at hmem
      obtain ⟨v, hres, himp⟩ := resolveDefault_stable
        (alGet (coerceBase (alGet st.selections cur)) (SelVal.vstr g)) _ hne
      refine ⟨v, hlk.trans hres, fun hv => ?_⟩
      exact hval (himp hv bc.value hmem)
    rw [hstate]
    rw [validateManualStepCompletion, hsc]
    dsimp only
    rw [if_neg (by simp [hman]), if_neg hg, hlookup]
    dsimp only
    congr 1
    rw [List.all_eq_true]
    intro g hgm
    obtain ⟨v, hv, hvne⟩ := hall g hgm
    rw [hv]
    cases v with
    | vnone => exact absurd rfl hvne
    | vstr s => rfl
    | vbool b => rfl

/-- C9 witness: on the fixture, both buttons of the single group carry
non-`None` values, and the validator accepts the rendered state. -/
theorem c9_validator_after_render_witness :
    validateManualStepCompletion wfColorWrap
        (generateKeyboardAndText wfColorWrap stAtColor).state "color" = some true :=
  c9_validator_after_render wfColorWrap stAtColor "color" stepColor rfl rfl rfl
    (by decide)
